import Mathlib

/-!
Verification development for the stock-dashboard data pipeline (`src/app.py`).

The pipeline operates on pandas float series aligned on a shared date axis.
We embed a series as `List (Option ℚ)`: `none` is the undefined marker
(pandas `NaN` for a missing value), and finite float values are idealised
as exact rationals.  All reductions that the source performs with pandas
(`.mean()`, `.min()`, `.max()`, `rolling(...).mean()`) skip undefined
entries exactly as pandas `skipna` reductions do, and
`rolling(window=w).mean()` uses the pandas default `min_periods = w`, so a
window containing an undefined entry yields an undefined output.
`pct_change` is modelled with nulls propagating (no forward fill).

This `Option` model collapses the zero-denominator float results of
`pct_change` (`±inf` when the current close is nonzero, `NaN` when it is
zero) into the one undefined marker; the theorems proved over it only
conclude at indices whose previous close is present and nonzero, where the
collapse is irrelevant.  Pandas `skipna` reductions skip `NaN` but *not*
infinities, so the error paths of the percent-change division are modelled
faithfully by the separate `FloatVal` development below (`pctChangeF`,
`nanmeanF`, `rowMeanF`), which distinguishes finite values, signed
infinities and `NaN`.
-/

/-- One aligned per-symbol series: a value per date, `none` = undefined. -/
abbrev Series : Type := List (Option ℚ)

/-- The cell of a series at index `i` (out of range counts as undefined). -/
def cell (s : Series) (i : ℕ) : Option ℚ :=
  (s.get? i).getD none

/-- The floor of a rational, written to evaluate inside the kernel. -/
def ratFloor (q : ℚ) : ℤ :=
  q.num.fdiv q.den

/-- Round a rational to the nearest integer, ties to even
(Python `round` semantics, idealised over exact rationals). -/
def roundHalfEven (q : ℚ) : ℤ :=
  if q - ratFloor q < 1/2 then ratFloor q
  else if 1/2 < q - ratFloor q then ratFloor q + 1
  else if ratFloor q % 2 = 0 then ratFloor q else ratFloor q + 1

/-- `round(q, n)` of Python: round to `n` decimal places, ties to even. -/
def roundTo (n : ℕ) (q : ℚ) : ℚ :=
  (roundHalfEven (q * 10 ^ n) : ℚ) / 10 ^ n

/-- Null-skipping mean of a list of cells: pandas `.mean()` /
`.mean(axis=1)` with the default `skipna=True`.  All-undefined (or empty)
input gives the undefined marker. -/
def nanmean (xs : List (Option ℚ)) : Option ℚ :=
  let vals := xs.filterMap id
  if vals = [] then none else some (vals.sum / vals.length)

/-- Null-skipping minimum: pandas `.min()`. -/
def nanmin (xs : List (Option ℚ)) : Option ℚ :=
  match xs.filterMap id with
  | [] => none
  | v :: vs => some (vs.foldl min v)

/-- Null-skipping maximum: pandas `.max()`. -/
def nanmax (xs : List (Option ℚ)) : Option ℚ :=
  match xs.filterMap id with
  | [] => none
  | v :: vs => some (vs.foldl max v)

/-- `close.pct_change()` (src/app.py lines 104 and 114): index 0 is
undefined; at `i > 0` the fractional change `(s[i] - s[i-1]) / s[i-1]`,
undefined when either neighbour is undefined.  A zero previous close is
also sent to the undefined marker here — a collapse of the source's
non-finite float results (`±inf`/`NaN`) that the theorems over this model
never rely on (their hypotheses require a present, nonzero previous
close); `pctChangeF` below keeps those float classes apart. -/
def pctChange (s : Series) : Series :=
  (List.range s.length).map fun i =>
    if i = 0 then none
    else
      match cell s (i - 1), cell s i with
      | some prev, some cur =>
          if prev = 0 then none else some ((cur - prev) / prev)
      | _, _ => none

/-- `close.pct_change() * 100` (src/app.py line 104): the daily percent
change series. -/
def dailyPercentChange (s : Series) : Series :=
  (pctChange s).map (Option.map (· * 100))

/-- `close.rolling(window=w).mean()` (src/app.py line 57): undefined until
`w` observations are available (pandas default `min_periods = w`), then the
arithmetic mean of the trailing window of `w` cells ending at `i`
(inclusive); any undefined cell inside the window makes the output
undefined. -/
def rollingMean (w : ℕ) (s : Series) : Series :=
  (List.range s.length).map fun i =>
    if i + 1 < w then none
    else
      let window := (s.drop (i + 1 - w)).take w
      if window.all Option.isSome then
        let vals := window.filterMap id
        some (vals.sum / vals.length)
      else none

/-- `close[i] - open[i]` elementwise (src/app.py line 89), nulls
propagating. -/
def dailyChange (openS closeS : Series) : Series :=
  List.zipWith (fun o c => do pure ((← c) - (← o))) openS closeS

/-! ### Sector aggregation (src/app.py lines 111-132) -/

/-- The static sector classification table (src/app.py lines 28-39). -/
def sector_map : List (String × String) :=
  [("AAPL", "Technology"),
   ("MSFT", "Technology"),
   ("GOOGL", "Technology"),
   ("AMZN", "Consumer Discretionary"),
   ("TSLA", "Automotive"),
   ("META", "Technology"),
   ("NVDA", "Technology"),
   ("NFLX", "Communication Services"),
   ("IBM", "Technology"),
   ("INTC", "Technology")]

/-- First value bound to a key in an association list (`dict.get`). -/
def lookupKey {α : Type} (l : List (String × α)) (k : String) : Option α :=
  match l with
  | [] => none
  | e :: rest => if e.1 = k then some e.2 else lookupKey rest k

/-- `sector_map.get(symbol, "Unknown")` (src/app.py line 113). -/
def sectorGet (sym : String) : String :=
  (lookupKey sector_map sym).getD "Unknown"

/-- Append a symbol's percent-change series to its sector's bucket,
keeping the Python-dict insertion order of sector keys
(src/app.py lines 115-118). -/
def insertChange (acc : List (String × List Series)) (sec : String)
    (ser : Series) : List (String × List Series) :=
  match acc with
  | [] => [(sec, [ser])]
  | e :: rest =>
      if e.1 = sec then (e.1, e.2 ++ [ser]) :: rest
      else e :: insertChange rest sec ser

/-- The `sector_changes` dict (src/app.py lines 111-118): iterate the
requested symbols in order, bucketing each symbol's fractional
`pct_change()` series under its sector. `data` maps a symbol to its
`Close_<symbol>` series. -/
def sectorChanges (symbols : List String) (data : String → Series) :
    List (String × List Series) :=
  symbols.foldl (fun acc sym => insertChange acc (sectorGet sym) (pctChange (data sym))) []

/-- `pd.concat(changes, axis=1).mean(axis=1)` (src/app.py line 125):
the per-date cross-symbol null-skipping mean of the bucketed series. -/
def rowMean (cols : List Series) : Series :=
  (List.range ((cols.map List.length).foldr max 0)).map fun i =>
    nanmean (cols.map (fun c => cell c i))

/-- The `sector_avg` table (src/app.py lines 120-127): one row per sector,
in `sector_changes` iteration order, carrying
`round(combined.mean() * 100, 4)`. An all-undefined combined series yields
an undefined scalar (pandas `NaN`). -/
def sectorAverages (symbols : List String) (data : String → Series) :
    List (String × Option ℚ) :=
  (sectorChanges symbols data).map fun e =>
    (e.1, (nanmean (rowMean e.2)).map (fun m => roundTo 4 (m * 100)))

/-- First-encounter (insertion) order of the labels of a list. -/
def firstEncounter (l : List String) : List String :=
  l.foldl (fun ks k => if k ∈ ks then ks else ks ++ [k]) []

/-! ### Summary table (src/app.py lines 136-150) -/

/-- One row of the comparison summary. -/
structure SummaryRecord where
  minClose : Option ℚ
  maxClose : Option ℚ
  meanClose : Option ℚ
  lastClose : Option ℚ
  deriving DecidableEq, Repr

/-- One summary row (src/app.py lines 143-149): min, max and mean are the
pandas null-skipping reductions of the close series, `last` is
`close_series.iloc[-1]` — the cell at the final position, undefined if that
cell is undefined.  Each is rounded to 2 decimal places (an undefined value
stays undefined, as `round(nan, 2)` is `nan`).  The source never calls this
on an empty frame (guarded by the symbol-selection check at line 41). -/
def summarize (s : Series) : SummaryRecord where
  minClose := (nanmin s).map (roundTo 2)
  maxClose := (nanmax s).map (roundTo 2)
  meanClose := (nanmean s).map (roundTo 2)
  lastClose := (s.getLast?.getD none).map (roundTo 2)

/-! ### The frame and the CSV export (src/app.py lines 41-57)

`all_data` after the flatten/reset at lines 43-44 is a Date column plus
one named column per (field, symbol) pair.  The CSV download at line 48
serialises `all_data` as it stands there — before the loop at lines 53-57
assigns the moving-average columns `<symbol>_MA<ma>` into `all_data`.
Numeric-to-text formatting of cells is abbreviated to an exact rendering
of the rational; the export claims concern columns, rows and their order,
not numeral formatting. -/

/-- The `all_data` frame: the Date column plus named value columns, all
sharing the Date axis (ascending as fetched). -/
structure Frame where
  dates : List String
  cols : List (String × Series)
  deriving DecidableEq, Repr

/-- Render one cell as CSV text (`NaN` serialises as an empty field). -/
def renderCell : Option ℚ → String
  | none => ""
  | some q => toString q.num ++ (if q.den = 1 then "" else "/" ++ toString q.den)

/-- The header fields of `all_data.to_csv(index=False)`. -/
def headerFields (f : Frame) : List String :=
  "Date" :: f.cols.map Prod.fst

/-- The fields of the CSV row for date index `i`. -/
def rowFields (f : Frame) (i : ℕ) : List String :=
  f.dates.getD i "" :: f.cols.map (fun c => renderCell (cell c.2 i))

/-- `all_data.to_csv(index=False)` (src/app.py line 48) as its list of
lines: the header line, then one line per date in the frame's date order. -/
def toCsvLines (f : Frame) : List String :=
  String.intercalate "," (headerFields f) ::
    (List.range f.dates.length).map (fun i => String.intercalate "," (rowFields f i))

/-- `df[name] = s` column assignment: replace in place, or append a new
column on the right. -/
def assignCol (cols : List (String × Series)) (name : String) (s : Series) :
    List (String × Series) :=
  match cols with
  | [] => [(name, s)]
  | c :: rest => if c.1 = name then (name, s) :: rest else c :: assignCol rest name s

/-- The moving-average assignment loop (src/app.py lines 53-57): for each
symbol, for each selected window, assign
`all_data[f"<symbol>_MA<ma>"] = all_data[f"Close_<symbol>"].rolling(window=ma).mean()`. -/
def addMACols (f : Frame) (symbols : List String) (maDays : List ℕ) : Frame :=
  symbols.foldl
    (fun f sym =>
      maDays.foldl
        (fun f ma =>
          { f with
            cols := assignCol f.cols (sym ++ "_MA" ++ toString ma)
              (rollingMean ma ((lookupKey f.cols ("Close_" ++ sym)).getD [])) })
        f)
    f

/-! ### IEEE float classes of the percent-change error paths

`pct_change` on a close column divides by the previous close.  In the
source's float arithmetic a zero previous close yields `+inf` (current
close positive), `-inf` (negative) or `NaN` (current close also zero), and
pandas `skipna` reductions such as `.mean(axis=1)` (src/app.py line 125)
and `.mean()` (line 127) drop `NaN` only — an infinity participates in the
mean and makes it non-finite.  `FloatVal` keeps these classes apart (a
finite value idealised as an exact rational, the two infinities, and `NaN`,
which is also pandas' missing-value marker).  Close columns hold only
finite values or `NaN`, so `pctStep` needs no rules for infinite inputs: a
`NaN` neighbour propagates as `NaN`. -/

/-- The classes of an IEEE float relevant to the pipeline. -/
inductive FloatVal where
  | fin (q : ℚ)
  | pinf
  | ninf
  | nan
  deriving DecidableEq, Repr

/-- One step of `pct_change` on float classes: `(cur - prev) / prev` with
float division.  A zero previous close gives `±inf` or `NaN` by the sign
of the current close; a `NaN` neighbour (missing close) gives `NaN`. -/
def pctStep (prev cur : FloatVal) : FloatVal :=
  match prev, cur with
  | .fin p, .fin c =>
      if p = 0 then
        if c = 0 then .nan
        else if 0 < c then .pinf else .ninf
      else .fin ((c - p) / p)
  | _, _ => .nan

/-- `close.pct_change()` (src/app.py line 114) over float classes. -/
def pctChangeF (s : List FloatVal) : List FloatVal :=
  (List.range s.length).map fun i =>
    if i = 0 then FloatVal.nan
    else pctStep (s.getD (i - 1) FloatVal.nan) (s.getD i FloatVal.nan)

/-- Pandas `.mean()` over float classes: `NaN` entries are skipped, all
others participate; an all-`NaN` (or empty) input is `NaN`, a surviving
`+inf` (resp. `-inf`) makes the mean `+inf` (resp. `-inf`), and opposite
infinities give `NaN` (their sum is `NaN`). -/
def nanmeanF (xs : List FloatVal) : FloatVal :=
  let vals := xs.filter (fun v => v ≠ FloatVal.nan)
  if vals = [] then FloatVal.nan
  else if FloatVal.pinf ∈ vals ∧ FloatVal.ninf ∈ vals then FloatVal.nan
  else if FloatVal.pinf ∈ vals then FloatVal.pinf
  else if FloatVal.ninf ∈ vals then FloatVal.ninf
  else
    FloatVal.fin
      ((vals.filterMap (fun v => match v with | .fin q => some q | _ => none)).sum /
        vals.length)

/-- `pd.concat(changes, axis=1).mean(axis=1)` (src/app.py line 125) over
float classes: the per-date cross-symbol mean of the sector's bucketed
percent-change series. -/
def rowMeanF (cols : List (List FloatVal)) : List FloatVal :=
  (List.range ((cols.map List.length).foldr max 0)).map fun i =>
    nanmeanF (cols.map (fun c => c.getD i FloatVal.nan))

/-! ### Generic evaluation lemmas -/

theorem get?_range_map {α : Type} (f : ℕ → α) (n i : ℕ) (h : i < n) :
    ((List.range n).map f).get? i = some (f i) := by
  rw [List.get?_map, List.get?_range h]
  rfl

theorem filterMap_id_map_some {α : Type} (l : List α) :
    (l.map some).filterMap id = l := by
  induction l with
  | nil => rfl
  | cons a t ih => simp [List.filterMap_cons, ih]

theorem rollingMean_get? (w : ℕ) (s : Series) (i : ℕ) (hi : i < s.length) :
    (rollingMean w s).get? i = some (
      if i + 1 < w then none
      else if ((s.drop (i + 1 - w)).take w).all Option.isSome then
        some ((((s.drop (i + 1 - w)).take w).filterMap id).sum /
          ((((s.drop (i + 1 - w)).take w).filterMap id).length : ℚ))
      else none) := by
  unfold rollingMean
  exact get?_range_map _ _ _ hi

/-- C2: for every close-price sequence and positive window size `w`, the
moving average at index `i ≥ w - 1` is the arithmetic mean of the `w`
elements at indices `[i - w + 1, i]`, and every output at an index below
`w - 1` is undefined. -/
theorem moving_average_window_spec (s : List ℚ) (w : ℕ) (hw : 1 ≤ w) (i : ℕ)
    (hi : i < s.length) :
    (w - 1 ≤ i →
      (rollingMean w (s.map some)).get? i
        = some (some (((s.drop (i + 1 - w)).take w).sum / (w : ℚ))))
    ∧ (i < w - 1 → (rollingMean w (s.map some)).get? i = some none) := by
  have key := rollingMean_get? w (s.map some) i (by simpa using hi)
  constructor
  · intro hwi
    have h1 : ¬ (i + 1 < w) := by omega
    have hwin : ((s.map some).drop (i + 1 - w)).take w
        = ((s.drop (i + 1 - w)).take w).map some := by
      simp [List.map_take, List.map_drop]
    have hall : (((s.drop (i + 1 - w)).take w).map some).all Option.isSome = true :=
      List.all_eq_true.2 fun x hx => by
        obtain ⟨y, _, rfl⟩ := List.mem_map.1 hx
        rfl
    have hlen2 : ((s.drop (i + 1 - w)).take w).length = w := by
      rw [List.length_take, List.length_drop]
      omega
    rw [key, hwin, if_neg h1, if_pos hall, filterMap_id_map_some, hlen2]
  · intro hlt
    have h1 : i + 1 < w := by omega
    rw [key, if_pos h1]

theorem moving_average_window_spec_witness :
    (rollingMean 2 (([1, 2, 3] : List ℚ).map some)).get? 1 = some (some (3/2))
    ∧ (rollingMean 2 (([1, 2, 3] : List ℚ).map some)).get? 0 = some none := by
  constructor
  · have h := (moving_average_window_spec [1, 2, 3] 2 (by norm_num) 1 (by norm_num)).1
      (by norm_num)
    rw [h]
    norm_num
  · exact (moving_average_window_spec [1, 2, 3] 2 (by norm_num) 0 (by norm_num)).2
      (by norm_num)

/-- C9: the moving average at index `i` is defined only when all `w` cells
of the trailing window are present: one undefined close inside the window
makes the output at `i` undefined rather than a mean of the rest. -/
theorem moving_average_null_window_spec (s : Series) (w i j : ℕ) (hi : i < s.length)
    (h₁ : i + 1 - w ≤ j) (h₂ : j ≤ i) (hj : s.get? j = some none) :
    (rollingMean w s).get? i = some none := by
  have key := rollingMean_get? w s i hi
  rw [key]
  by_cases h1 : i + 1 < w
  · rw [if_pos h1]
  · rw [if_neg h1]
    have hmem : (none : Option ℚ) ∈ (s.drop (i + 1 - w)).take w := by
      have hlt : j - (i + 1 - w) < w := by omega
      have hget : ((s.drop (i + 1 - w)).take w).get? (j - (i + 1 - w)) = some none := by
        rw [List.get?_take hlt, List.get?_drop]
        have hjj : (i + 1 - w) + (j - (i + 1 - w)) = j := by omega
        rw [hjj]
        exact hj
      exact List.get?_mem hget
    have hnotall : ¬ ((s.drop (i + 1 - w)).take w).all Option.isSome = true := by
      intro hall
      have := List.all_eq_true.1 hall _ hmem
      simp at this
    rw [if_neg hnotall]

theorem moving_average_null_window_spec_witness :
    (rollingMean 2 [some 1, none, some 3]).get? 2 = some none :=
  moving_average_null_window_spec [some 1, none, some 3] 2 2 1 (by norm_num)
    (by norm_num) (by norm_num) rfl

theorem pctChange_get? (s : Series) (i : ℕ) (hi : i < s.length) :
    (pctChange s).get? i = some (
      if i = 0 then none
      else
        match cell s (i - 1), cell s i with
        | some prev, some cur =>
            if prev = 0 then none else some ((cur - prev) / prev)
        | _, _ => none) := by
  unfold pctChange
  exact get?_range_map _ _ _ hi

/-- C6: for every close series, the daily percent change at index 0 is
undefined, and for every `i > 0` with `close[i-1]` present and nonzero and
`close[i]` present, the output at `i` equals
`(close[i] - close[i-1]) / close[i-1] * 100`. -/
theorem daily_percent_change_spec (s : Series) :
    (s ≠ [] → (dailyPercentChange s).get? 0 = some none)
    ∧ ∀ (i : ℕ) (prev cur : ℚ), 0 < i → s.get? (i - 1) = some (some prev) →
      s.get? i = some (some cur) → prev ≠ 0 →
      (dailyPercentChange s).get? i = some (some ((cur - prev) / prev * 100)) := by
  constructor
  · intro hne
    have h0 : 0 < s.length := List.length_pos.2 hne
    unfold dailyPercentChange
    rw [List.get?_map, pctChange_get? s 0 h0]
    rfl
  · intro i prev cur hipos hprev hcur hne
    have hi : i < s.length := (List.get?_eq_some.1 hcur).1
    have hc1 : cell s (i - 1) = some prev := by rw [cell, hprev]; rfl
    have hc2 : cell s i = some cur := by rw [cell, hcur]; rfl
    have hi0 : i ≠ 0 := by omega
    unfold dailyPercentChange
    rw [List.get?_map, pctChange_get? s i hi]
    simp [hi0, hc1, hc2, hne]

theorem daily_percent_change_spec_witness :
    (dailyPercentChange [some 100, some 102]).get? 0 = some none
    ∧ (dailyPercentChange [some 100, some 102]).get? 1 = some (some 2) := by
  constructor
  · exact (daily_percent_change_spec [some 100, some 102]).1 (by simp)
  · have h := (daily_percent_change_spec [some 100, some 102]).2 1 100 102
      (by norm_num) rfl rfl (by norm_num)
    rw [h]
    norm_num

theorem pctChangeF_get? (s : List FloatVal) (i : ℕ) (hi : i < s.length) :
    (pctChangeF s).get? i = some (
      if i = 0 then FloatVal.nan
      else pctStep (s.getD (i - 1) FloatVal.nan) (s.getD i FloatVal.nan)) := by
  unfold pctChangeF
  exact get?_range_map _ _ _ hi

/-- C3 fails on the code: a zero previous close with a nonzero current
close makes `pct_change` yield a signed infinity, not the skippable `NaN`
marker, and pandas' `skipna` mean does not exclude an infinity — one
symbol's `+inf` on a date makes that date's sector per-date cross-symbol
mean `+inf` (non-finite) instead of the finite mean of the remaining
values. -/
theorem nonfinite_claim_counterexample :
    (pctChangeF [.fin 0, .fin 5]).get? 1 = some FloatVal.pinf
    ∧ rowMeanF [pctChangeF [.fin 0, .fin 5], pctChangeF [.fin 100, .fin 102]]
        = [FloatVal.nan, FloatVal.pinf]
    ∧ nanmeanF [FloatVal.fin (1/50)] = FloatVal.fin (1/50) := by
  refine ⟨?_, ?_, ?_⟩
  · norm_num +decide [pctChangeF, pctStep, List.range_succ]
  · norm_num +decide [rowMeanF, nanmeanF, pctChangeF, pctStep, List.range_succ,
      List.filter_cons, List.cons_ne_nil]
  · norm_num +decide [nanmeanF, List.filter_cons, List.filterMap_cons, List.cons_ne_nil]

/-- C3 (amended): `NaN` values — a missing close, or the `0/0` percent
change when the previous and the current close are both zero — propagate
as the undefined marker without raising any exception (the embedding is
total) and are excluded from the sector per-date cross-symbol mean; but a
zero previous close with a nonzero current close yields a signed infinity,
which the `skipna` mean does not exclude: it participates and makes the
mean infinite (here `+inf` whenever no `-inf` is present). -/
theorem nonfinite_paths_spec :
    (∀ (s : List FloatVal) (i : ℕ), 0 < i → i < s.length →
        s.getD (i - 1) FloatVal.nan = .fin 0 → s.getD i FloatVal.nan = .fin 0 →
        (pctChangeF s).get? i = some FloatVal.nan)
    ∧ (∀ (l₁ l₂ : List FloatVal),
        nanmeanF (l₁ ++ FloatVal.nan :: l₂) = nanmeanF (l₁ ++ l₂))
    ∧ (∀ (s : List FloatVal) (i : ℕ) (cur : ℚ), 0 < i → i < s.length →
        s.getD (i - 1) FloatVal.nan = .fin 0 → s.getD i FloatVal.nan = .fin cur →
        0 < cur → (pctChangeF s).get? i = some FloatVal.pinf)
    ∧ (∀ l : List FloatVal, FloatVal.pinf ∈ l → FloatVal.ninf ∉ l →
        nanmeanF l = FloatVal.pinf) := by
  refine ⟨?_, ?_, ?_, ?_⟩
  · intro s i hpos hi hprev hcur
    have hi0 : i ≠ 0 := by omega
    rw [pctChangeF_get? s i hi, hprev, hcur]
    simp [hi0, pctStep]
  · intro l₁ l₂
    simp +decide [nanmeanF, List.filter_append, List.filter_cons]
  · intro s i cur hpos hi hprev hcur hcpos
    have hi0 : i ≠ 0 := by omega
    have hc0 : ¬ cur = 0 := by
      intro h
      rw [h] at hcpos
      exact lt_irrefl 0 hcpos
    rw [pctChangeF_get? s i hi, hprev, hcur]
    simp [hi0, pctStep, hc0, hcpos]
  · intro l hp hn
    have hpv : FloatVal.pinf ∈ l.filter (fun v => v ≠ FloatVal.nan) :=
      List.mem_filter.2 ⟨hp, by decide⟩
    have hnv : FloatVal.ninf ∉ l.filter (fun v => v ≠ FloatVal.nan) := by
      intro hmem
      exact hn (List.mem_filter.1 hmem).1
    have h1 : ¬ l.filter (fun v => v ≠ FloatVal.nan) = [] :=
      List.ne_nil_of_mem hpv
    have h2 : ¬ (FloatVal.pinf ∈ l.filter (fun v => v ≠ FloatVal.nan)
        ∧ FloatVal.ninf ∈ l.filter (fun v => v ≠ FloatVal.nan)) :=
      fun h => hnv h.2
    simp only [nanmeanF]
    rw [if_neg h1, if_neg h2, if_pos hpv]

theorem nonfinite_paths_spec_witness :
    (pctChangeF [.fin 0, .fin 0]).get? 1 = some FloatVal.nan
    ∧ nanmeanF ([] ++ FloatVal.nan :: [FloatVal.fin 3]) = nanmeanF ([] ++ [FloatVal.fin 3])
    ∧ (pctChangeF [.fin 0, .fin 5]).get? 1 = some FloatVal.pinf
    ∧ nanmeanF [FloatVal.pinf, FloatVal.fin (1/50)] = FloatVal.pinf :=
  ⟨nonfinite_paths_spec.1 [.fin 0, .fin 0] 1 (by norm_num) (by norm_num) rfl rfl,
   nonfinite_paths_spec.2.1 [] [FloatVal.fin 3],
   nonfinite_paths_spec.2.2.1 [.fin 0, .fin 5] 1 5 (by norm_num) (by norm_num) rfl rfl
     (by norm_num),
   nonfinite_paths_spec.2.2.2 [FloatVal.pinf, FloatVal.fin (1/50)] (by simp) (by simp)⟩

/-! ### Grouping lemmas for the sector dict -/

theorem lookupKey_insertChange (acc : List (String × List Series)) (k sec : String)
    (ser : Series) :
    lookupKey (insertChange acc k ser) sec
      = if sec = k then some (((lookupKey acc sec).getD []) ++ [ser])
        else lookupKey acc sec := by
  induction acc with
  | nil =>
      by_cases h : sec = k
      · subst h
        simp [insertChange, lookupKey]
      · simp [insertChange, lookupKey, h, Ne.symm h]
  | cons e rest ih =>
      by_cases hk : e.1 = k
      · by_cases hs : sec = k
        · subst hs
          simp [insertChange, lookupKey, hk]
        · have he : ¬ e.1 = sec := by
            intro hh
            exact hs (hh ▸ hk)
          simp [insertChange, lookupKey, hk, he, hs, Ne.symm hs]
      · by_cases he : e.1 = sec
        · have hs : ¬ sec = k := by
            intro hh
            exact hk (he.symm ▸ hh)
          simp [insertChange, lookupKey, hk, he, hs]
        · simp [insertChange, lookupKey, hk, he, ih]

theorem keys_insertChange (acc : List (String × List Series)) (sec : String)
    (ser : Series) :
    (insertChange acc sec ser).map Prod.fst
      = if sec ∈ acc.map Prod.fst then acc.map Prod.fst
        else acc.map Prod.fst ++ [sec] := by
  induction acc with
  | nil => simp [insertChange]
  | cons e rest ih =>
      by_cases h : e.1 = sec
      · simp [insertChange, h]
      · have h2 : ¬ sec = e.1 := fun hh => h hh.symm
        simp only [insertChange, h, if_false, List.map_cons, ih]
        by_cases hm : sec ∈ rest.map Prod.fst <;> simp [hm, h2]

theorem lookupKey_sectorChanges (data : String → Series) :
    ∀ (symbols : List String) (acc : List (String × List Series)) (sec : String),
    (lookupKey
        (symbols.foldl (fun a sym => insertChange a (sectorGet sym) (pctChange (data sym))) acc)
        sec).getD []
      = ((lookupKey acc sec).getD [])
        ++ (symbols.filter (fun s => sectorGet s = sec)).map (fun s => pctChange (data s))
  | [], acc, sec => by simp
  | sym :: rest, acc, sec => by
      rw [List.foldl_cons, lookupKey_sectorChanges data rest _ sec, lookupKey_insertChange,
        List.filter_cons]
      by_cases h : sec = sectorGet sym
      · simp [h, if_pos (h.symm), List.append_assoc]
      · have h2 : ¬ sectorGet sym = sec := fun hh => h hh.symm
        simp [h, h2]

theorem keys_sectorChanges (data : String → Series) :
    ∀ (symbols : List String) (acc : List (String × List Series)),
    (symbols.foldl (fun a sym => insertChange a (sectorGet sym) (pctChange (data sym))) acc).map
        Prod.fst
      = symbols.foldl (fun ks sym => if sectorGet sym ∈ ks then ks else ks ++ [sectorGet sym])
          (acc.map Prod.fst)
  | [], acc => by simp
  | sym :: rest, acc => by
      rw [List.foldl_cons, keys_sectorChanges data rest _, keys_insertChange, List.foldl_cons]

theorem mem_encounter_foldl :
    ∀ (l ks : List String) (a : String),
    (a ∈ l.foldl (fun ks k => if k ∈ ks then ks else ks ++ [k]) ks) ↔ a ∈ ks ∨ a ∈ l
  | [], ks, a => by simp
  | x :: rest, ks, a => by
      rw [List.foldl_cons, mem_encounter_foldl rest _ a]
      by_cases hx : x ∈ ks
      · have hax : a = x → a ∈ ks := fun h => h ▸ hx
        simp only [hx, if_true, List.mem_cons]
        tauto
      · simp only [hx, if_false, List.mem_append, List.mem_cons, List.mem_singleton]
        tauto

theorem sectorAverages_keys (symbols : List String) (data : String → Series) :
    (sectorAverages symbols data).map Prod.fst = firstEncounter (symbols.map sectorGet) := by
  unfold sectorAverages sectorChanges firstEncounter
  rw [List.map_map]
  have hfst : (Prod.fst ∘ fun e : String × List Series =>
      (e.1, (nanmean (rowMean e.2)).map (fun m => roundTo 4 (m * 100)))) = Prod.fst := rfl
  rw [hfst, keys_sectorChanges, List.foldl_map]
  rfl

/-- C1: symbols are grouped by sector (each sector's bucket holds exactly
its member symbols' fractional percent-change series, in requested order);
each sector's scalar is the per-date cross-symbol mean averaged over all
dates, times 100, rounded to 4 decimal places; and for two symbols of one
sector with per-date percent changes `[2, -2]` and `[4, 0]` the sector
scalar is exactly 1 (i.e. 1.0000 at 4 decimal places). -/
theorem sector_aggregation_spec :
    (∀ (symbols : List String) (data : String → Series) (sec : String),
      (lookupKey (sectorChanges symbols data) sec).getD []
        = (symbols.filter (fun s => sectorGet s = sec)).map (fun s => pctChange (data s)))
    ∧ sectorAverages ["AAPL", "MSFT"]
        (fun s => if s = "AAPL" then [some 100, some 102, some (9996/100)]
          else [some 100, some 104, some 104])
      = [("Technology", some 1)] := by
  constructor
  · intro symbols data sec
    unfold sectorChanges
    rw [lookupKey_sectorChanges data symbols [] sec]
    simp [lookupKey]
  · norm_num +decide [sectorAverages, sectorChanges, insertChange, sectorGet, sector_map,
      pctChange, cell, rowMean, nanmean, roundTo, roundHalfEven, ratFloor, List.range_succ,
      List.filterMap_cons, List.cons_ne_nil, lookupKey]

/-- C8: the sector rows appear in first-encounter (insertion) order of the
sector labels along the requested symbol list — not alphabetically; e.g.
requesting AAPL then AMZN yields Technology before Consumer Discretionary. -/
theorem sector_order_spec :
    (∀ (symbols : List String) (data : String → Series),
      (sectorAverages symbols data).map Prod.fst = firstEncounter (symbols.map sectorGet))
    ∧ (sectorAverages ["AAPL", "AMZN"] (fun _ => [some 1, some 2])).map Prod.fst
        = ["Technology", "Consumer Discretionary"]
    ∧ ["Technology", "Consumer Discretionary"] ≠ ["Consumer Discretionary", "Technology"] := by
  refine ⟨sectorAverages_keys, ?_, by decide⟩
  rw [sectorAverages_keys]
  decide

/-- C7: a requested symbol with no entry in the sector map is grouped under
the fixed sentinel sector "Unknown", and an "Unknown" row then appears in
the sector-average output. -/
theorem unknown_sector_spec (symbols : List String) (data : String → Series) (sym : String)
    (hmem : sym ∈ symbols) (hnone : lookupKey sector_map sym = none) :
    ∃ v, ("Unknown", v) ∈ sectorAverages symbols data := by
  have hget : sectorGet sym = "Unknown" := by
    rw [sectorGet, hnone]
    rfl
  have hU : "Unknown" ∈ (sectorAverages symbols data).map Prod.fst := by
    rw [sectorAverages_keys]
    exact (mem_encounter_foldl _ _ _).2 (Or.inr (List.mem_map.2 ⟨sym, hmem, hget⟩))
  obtain ⟨p, hp, hfst⟩ := List.mem_map.1 hU
  have hpair : ("Unknown", p.2) = p := by
    rw [← hfst]
  exact ⟨p.2, hpair ▸ hp⟩

theorem unknown_sector_spec_witness :
    ∃ v, ("Unknown", v) ∈ sectorAverages ["ZZZZ"] (fun _ => [some 1, some 2]) :=
  unknown_sector_spec ["ZZZZ"] (fun _ => [some 1, some 2]) "ZZZZ" (by simp) (by decide)

/-- C5: over the close series [10, 20, 5, 15] the summary reports
min = 5, max = 20, mean = 12.5 and last = 15 (each rounded to 2 decimal
places, which leaves these values unchanged). -/
theorem summarize_example_spec :
    summarize [some 10, some 20, some 5, some 15]
      = ⟨some 5, some 20, some (25/2), some 15⟩ := by
  norm_num [summarize, nanmin, nanmax, nanmean, roundTo, roundHalfEven, ratFloor,
    List.filterMap_cons, List.cons_ne_nil, SummaryRecord.mk.injEq]

/-- C10: the summary's `last` field is the value at the final position of
the close series — for any series it is the rounded last cell, so when the
final cell is undefined the reported value is undefined, not the most
recent non-null close (here 20). -/
theorem last_close_positional_spec :
    (∀ (l : Series) (c : Option ℚ),
      (summarize (l ++ [c])).lastClose = c.map (roundTo 2))
    ∧ (summarize [some 10, some 20, none]).lastClose = none
    ∧ (List.filterMap id [some 10, some 20, none]).getLast? = some 20
    ∧ (summarize [some 10, some 20, none]).lastClose ≠ some (roundTo 2 20) := by
  refine ⟨?_, ?_, ?_, ?_⟩
  · intro l c
    simp [summarize, List.getLast?_concat]
  · simp [summarize]
  · norm_num [List.filterMap_cons]
  · simp [summarize]

/-- C4 fails on the code: the CSV download is serialised at src/app.py
line 48, before the loop at lines 53-57 assigns the computed
moving-average columns into `all_data`.  At a concrete run (one symbol,
one window) the derived table has column "AAPL_MA7" but the exported
header row does not name it. -/
theorem export_claim_counterexample :
    "AAPL_MA7" ∈ (addMACols ⟨["2023-01-02", "2023-01-03"],
        [("Close_AAPL", [some 10, some 11])]⟩ ["AAPL"] [7]).cols.map Prod.fst
    ∧ toCsvLines ⟨["2023-01-02", "2023-01-03"], [("Close_AAPL", [some 10, some 11])]⟩
        = ["Date,Close_AAPL", "2023-01-02,10", "2023-01-03,11"]
    ∧ "AAPL_MA7" ∉ headerFields ⟨["2023-01-02", "2023-01-03"],
        [("Close_AAPL", [some 10, some 11])]⟩ := by
  refine ⟨?_, ?_, by decide⟩
  · norm_num +decide [addMACols, assignCol, rollingMean, lookupKey, List.range_succ]
  · norm_num +decide [toCsvLines, headerFields, rowFields, renderCell, cell, List.range_succ]

/-- C4 (amended): the exported comma-separated text is the table as it
stands at the export point — the raw fetched columns only: a header line
naming every exported column, then exactly one line per date, in the
frame's (ascending) date order; the computed moving-average columns are
assigned only after the export and are absent from it. -/
theorem export_rawtable_spec (f : Frame) :
    (toCsvLines f).get? 0 = some (String.intercalate "," (headerFields f))
    ∧ (toCsvLines f).length = f.dates.length + 1
    ∧ ∀ i, i < f.dates.length →
        (toCsvLines f).get? (i + 1) = some (String.intercalate "," (rowFields f i)) := by
  refine ⟨rfl, by simp [toCsvLines], ?_⟩
  intro i hi
  show ((List.range f.dates.length).map
      (fun i => String.intercalate "," (rowFields f i))).get? i = _
  exact get?_range_map _ _ _ hi

theorem export_rawtable_spec_witness :
    (toCsvLines ⟨["2023-01-02", "2023-01-03"], [("Close_AAPL", [some 10, some 11])]⟩).get? 1
      = some (String.intercalate ","
          (rowFields ⟨["2023-01-02", "2023-01-03"], [("Close_AAPL", [some 10, some 11])]⟩ 0)) :=
  (export_rawtable_spec ⟨["2023-01-02", "2023-01-03"],
    [("Close_AAPL", [some 10, some 11])]⟩).2.2 0 (by norm_num)
